import Mathlib

/-!
Verification of the CodecAgent browser client's synchronization core against
its specification.  The definitions below are a shallow embedding of the
JavaScript source:

* `Job`, `Payload`, `StatusResponse` — the frontend job snapshot and the
  shape returned by `GET /jobs/{id}/status` (`services/api.js`).
* `jobItemMerge` / `jobItemFail` — the `setJob` updaters of the polling
  interval in `components/JobItem.jsx` (lines 24–50).
* `jobDetailMerge` — the `setJob` updater of `fetchJob` in
  `pages/JobDetailPage.jsx` (lines 42–59); the spread replaces `status` and
  `result_payload` is set from the response's `result` field on every
  successful fetch.
* `pollState` — the single-threaded event-loop semantics of the interval
  effects: both components start a 5-second interval only while
  `job.status` is `PENDING` or `PROGRESS`, and the effect's cleanup clears
  the interval as soon as the status leaves that set (`JobItem.jsx` lines
  16–61, `JobDetailPage.jsx` lines 68–77).  `pollState tick f n j` is the
  snapshot before tick `n` when tick `i` of the schedule returns `f i`;
  a tick runs (performs a fetch) exactly when the snapshot is still in a
  running status.

Machine integers do not occur; timestamps are modelled as `Int`
(milliseconds since the epoch, the value `new Date(s).getTime()` yields).
-/

namespace CodecAgent

/-- The `result` payload of a job, `{ message, output_path }` as produced by
the backend and stored under `job.result_payload` in the frontend. -/
structure Payload where
  message : String
  output_path : Option String
deriving DecidableEq

/-- The frontend job snapshot (fields used by the synchronization core).
`created_at` is modelled as epoch milliseconds. -/
structure Job where
  job_id : String
  prompt : String
  status : String
  created_at : Int
  result_payload : Option Payload
deriving DecidableEq

/-- The body returned by `GET /jobs/{id}/status`: a status string plus the
current result payload (`updatedStatus.status`, `updatedStatus.result` in
`JobItem.jsx`). -/
structure StatusResponse where
  status : String
  result : Option Payload
deriving DecidableEq

/-- Outcome of one tick's fetch: the decoded response, or a thrown
network/decode error. -/
abbrev FetchResult := Except Unit StatusResponse

/-- The running check used everywhere in the frontend:
`status === 'PENDING' || status === 'PROGRESS'` (`JobItem.jsx` line 17,
`JobDetailPage.jsx` line 69, `Sidebar.jsx` lines 21–22). -/
def isRunningStatus (s : String) : Bool :=
  s == "PENDING" || s == "PROGRESS"

/-- The `setJob` updater of a successful tick in `JobItem.jsx` (lines
34–42): the status is always replaced; the payload is replaced only when
the new status is `SUCCESS` or `FAILURE` and the response carries a truthy
payload, otherwise the previous payload is kept. -/
def jobItemMerge (prev : Job) (resp : StatusResponse) : Job :=
  { prev with
    status := resp.status
    result_payload :=
      if (resp.status == "SUCCESS" || resp.status == "FAILURE") && resp.result.isSome then
        resp.result
      else
        prev.result_payload }

/-- The `setJob` updater of the catch branch in `JobItem.jsx` (line 48):
status becomes `FAILURE` with the synthetic payload
`{ message: 'Error fetching status.' }`. -/
def jobItemFail (prev : Job) : Job :=
  { prev with
    status := "FAILURE"
    result_payload := some { message := "Error fetching status.", output_path := none } }

/-- One tick of the `JobItem.jsx` interval: apply the merge on success, the
synthetic failure on a thrown fetch. -/
def jobItemTick (prev : Job) (r : FetchResult) : Job :=
  match r with
  | .ok resp => jobItemMerge prev resp
  | .error _ => jobItemFail prev

/-- The `setJob` updater of `fetchJob` in `JobDetailPage.jsx` (lines
50–54): `{...prevJob, ...fetchedJobData, result_payload: fetchedJobData.result}`
replaces the status and sets the payload from the response's `result` field
unconditionally. -/
def jobDetailMerge (prev : Job) (resp : StatusResponse) : Job :=
  { prev with status := resp.status, result_payload := resp.result }

/-- One tick of the `JobDetailPage.jsx` interval: apply the merge on
success; the catch branch (lines 55–58) only records an error message and
leaves the job snapshot unchanged. -/
def jobDetailTick (prev : Job) (r : FetchResult) : Job :=
  match r with
  | .ok resp => jobDetailMerge prev resp
  | .error _ => prev

/-- Snapshot before tick `n` of an interval loop whose tick `i` fetches
`f i`: a tick runs exactly when the snapshot's status is still running
(the effect keeps the interval alive only in that case). -/
def pollState (tick : Job → FetchResult → Job) (f : Nat → FetchResult) : Nat → Job → Job
  | 0, j => j
  | n + 1, j =>
      let s := pollState tick f n j
      if isRunningStatus s.status then tick s (f n) else s

/-- Whether tick `n` of the loop performs a status fetch. -/
def pollsAt (tick : Job → FetchResult → Job) (f : Nat → FetchResult) (n : Nat) (j : Job) : Bool :=
  isRunningStatus ((pollState tick f n j).status)

/-- The `JobItem.jsx` polling loop. -/
def jobItemState (f : Nat → FetchResult) (n : Nat) (j : Job) : Job :=
  pollState jobItemTick f n j

/-- Whether tick `n` of the `JobItem.jsx` loop performs a fetch. -/
def jobItemPollsAt (f : Nat → FetchResult) (n : Nat) (j : Job) : Bool :=
  pollsAt jobItemTick f n j

/-- The `JobDetailPage.jsx` polling loop (after the initial load has
populated a non-null job). -/
def jobDetailState (f : Nat → FetchResult) (n : Nat) (j : Job) : Job :=
  pollState jobDetailTick f n j

/-- Whether tick `n` of the `JobDetailPage.jsx` loop performs a fetch. -/
def jobDetailPollsAt (f : Nat → FetchResult) (n : Nat) (j : Job) : Bool :=
  pollsAt jobDetailTick f n j

/-- Once the snapshot has left the running statuses the loop is frozen:
no tick runs again and the state never changes. -/
theorem pollState_frozen (tick : Job → FetchResult → Job) (f : Nat → FetchResult)
    (j : Job) (n : Nat) (h : isRunningStatus ((pollState tick f n j).status) = false) :
    ∀ m, n ≤ m → pollState tick f m j = pollState tick f n j := by
  intro m hm
  induction m with
  | zero =>
      have : n = 0 := Nat.le_zero.mp hm
      simp [this]
  | succ k ih =>
      rcases Nat.lt_or_ge n (k + 1) with hlt | hge
      · have hnk : n ≤ k := Nat.lt_succ_iff.mp hlt
        have hk := ih hnk
        show (let s := pollState tick f k j
              if isRunningStatus s.status then tick s (f k) else s) = pollState tick f n j
        simp [hk, h]
      · have : n = k + 1 := Nat.le_antisymm hm hge
        simp [this]

/-- Applying a successful tick replaces the status with the fetched one, in
both loops. -/
theorem tick_ok_status (prev : Job) (resp : StatusResponse) :
    (jobItemTick prev (.ok resp)).status = resp.status ∧
    (jobDetailTick prev (.ok resp)).status = resp.status := by
  constructor <;> rfl

/-- A terminal status string is not a running one. -/
theorem terminal_not_running (s : String) (h : s = "SUCCESS" ∨ s = "FAILURE") :
    isRunningStatus s = false := by
  rcases h with h | h <;> simp [h, isRunningStatus]

/-- Helper for the poll-termination claims: if the status fetched by tick
`N` is terminal then the loop is frozen from tick `N + 1` on, for any tick
function that installs the fetched status on success. -/
theorem pollState_stops_after_terminal (tick : Job → FetchResult → Job)
    (htick : ∀ prev resp, (tick prev (.ok resp)).status = resp.status)
    (f : Nat → FetchResult) (j : Job) (N : Nat) (resp : StatusResponse)
    (hf : f N = .ok resp) (hterm : resp.status = "SUCCESS" ∨ resp.status = "FAILURE") :
    ∀ M, N < M → pollsAt tick f M j = false := by
  have hnr : isRunningStatus resp.status = false := terminal_not_running resp.status hterm
  have hstop : isRunningStatus ((pollState tick f (N + 1) j).status) = false := by
    show isRunningStatus
        ((let s := pollState tick f N j
          if isRunningStatus s.status then tick s (f N) else s).status) = false
    by_cases hrun : isRunningStatus ((pollState tick f N j).status) = true
    · simp only [hrun, if_true]
      rw [hf, htick]
      exact hnr
    · simp only [Bool.not_eq_true] at hrun
      simp only [hrun, if_false]
      exact hrun
  intro M hM
  have hfroz := pollState_frozen tick f j (N + 1) hstop M hM
  unfold pollsAt
  rw [hfroz]
  exact hstop

/-- C1: once a per-job polling tick fetches a terminal status
(`SUCCESS` or `FAILURE`), no status fetch occurs on any later tick of that
subscription — for the `JobItem.jsx` loop and the `JobDetailPage.jsx` loop
alike. -/
theorem terminal_fetch_stops_polling (f : Nat → FetchResult) (j jD : Job)
    (N M : Nat) (resp : StatusResponse) (hf : f N = .ok resp)
    (hterm : resp.status = "SUCCESS" ∨ resp.status = "FAILURE") (hM : N < M) :
    jobItemPollsAt f M j = false ∧ jobDetailPollsAt f M jD = false := by
  constructor
  · exact pollState_stops_after_terminal jobItemTick (fun p r => rfl) f j N resp hf hterm M hM
  · exact pollState_stops_after_terminal jobDetailTick (fun p r => rfl) f jD N resp hf hterm M hM

/-- C1 witness: a schedule whose tick 0 returns `SUCCESS` performs no fetch
on tick 1 in either loop. -/
theorem terminal_fetch_stops_polling_check :
    jobItemPollsAt (fun _ => .ok { status := "SUCCESS", result := none }) 1
      { job_id := "job-1", prompt := "p", status := "PROGRESS", created_at := 0,
        result_payload := none } = false ∧
    jobDetailPollsAt (fun _ => .ok { status := "SUCCESS", result := none }) 1
      { job_id := "job-1", prompt := "p", status := "PROGRESS", created_at := 0,
        result_payload := none } = false :=
  terminal_fetch_stops_polling (fun _ => .ok { status := "SUCCESS", result := none })
    { job_id := "job-1", prompt := "p", status := "PROGRESS", created_at := 0,
      result_payload := none }
    { job_id := "job-1", prompt := "p", status := "PROGRESS", created_at := 0,
      result_payload := none }
    0 1 { status := "SUCCESS", result := none } rfl (Or.inl rfl) Nat.one_pos

/-- C3 counterexample: a successful non-terminal tick in `JobItem.jsx`
replaces the status but keeps the stale payload.  Starting from a `PENDING`
job whose payload message is `"m0"`, a fetch returning `PROGRESS` with
payload message `"halfway"` yields the newly fetched status paired with the
old payload, so status and payload are not replaced together on every
successful tick. -/
theorem jobItem_merge_keeps_stale_payload :
    (jobItemMerge
        { job_id := "j", prompt := "p", status := "PENDING", created_at := 0,
          result_payload := some { message := "m0", output_path := none } }
        { status := "PROGRESS", result := some { message := "halfway", output_path := none } }).status
        = "PROGRESS" ∧
    (jobItemMerge
        { job_id := "j", prompt := "p", status := "PENDING", created_at := 0,
          result_payload := some { message := "m0", output_path := none } }
        { status := "PROGRESS", result := some { message := "halfway", output_path := none } }).result_payload
        = some { message := "m0", output_path := none } ∧
    some ({ message := "m0", output_path := none } : Payload)
        ≠ some ({ message := "halfway", output_path := none } : Payload) := by
  refine ⟨rfl, rfl, by decide⟩

/-- C3 amended: every tick's update is a single replacement of the whole
snapshot; the `JobDetailPage.jsx` merge replaces status and payload
together on every successful tick; the `JobItem.jsx` merge replaces them
together exactly when the new status is terminal and the response carries a
payload (in particular, an observed transition to `SUCCESS` whose response
carries the final payload delivers that payload in the same update), and
otherwise keeps the previous payload. -/
theorem merge_atomicity_amended (prev : Job) (resp : StatusResponse) :
    ((jobDetailMerge prev resp).status = resp.status ∧
      (jobDetailMerge prev resp).result_payload = resp.result) ∧
    (∀ p : Payload, resp.status = "SUCCESS" → resp.result = some p →
      (jobItemMerge prev resp).status = "SUCCESS" ∧
        (jobItemMerge prev resp).result_payload = some p) ∧
    (((resp.status == "SUCCESS" || resp.status == "FAILURE") && resp.result.isSome) = false →
      (jobItemMerge prev resp).result_payload = prev.result_payload) := by
  refine ⟨⟨rfl, rfl⟩, ?_, ?_⟩
  · intro p hs hr
    constructor
    · simp [jobItemMerge, hs]
    · simp [jobItemMerge, hs, hr]
  · intro h
    simp [jobItemMerge, h]

/-- C4 counterexample: in the `JobDetailPage.jsx` loop a tick whose fetch
throws does not set the job to `FAILURE` and does not stop the loop — the
next tick still performs a fetch, retrying the failed one.  Tick 0 of the
all-errors schedule polls and throws, yet tick 1 polls again and the
snapshot is unchanged. -/
theorem detail_loop_retries_after_error :
    jobDetailPollsAt (fun _ => .error ()) 0
      { job_id := "j", prompt := "p", status := "PROGRESS", created_at := 0,
        result_payload := none } = true ∧
    jobDetailPollsAt (fun _ => .error ()) 1
      { job_id := "j", prompt := "p", status := "PROGRESS", created_at := 0,
        result_payload := none } = true ∧
    (jobDetailState (fun _ => .error ()) 1
      { job_id := "j", prompt := "p", status := "PROGRESS", created_at := 0,
        result_payload := none }).status ≠ "FAILURE" := by
  refine ⟨rfl, rfl, by decide⟩

/-- C4 amended: in the `JobItem.jsx` loop a tick whose fetch throws sets
the status to `FAILURE` with the synthetic payload
`{ message := "Error fetching status." }` and no later tick fetches; in the
`JobDetailPage.jsx` loop a failed tick leaves the snapshot unchanged (only
an error message is recorded) and polling continues, so the failed tick is
retried on the next interval. -/
theorem tick_failure_behaviour (f : Nat → FetchResult) (j jD : Job) (N : Nat)
    (hf : f N = .error ()) :
    (jobItemPollsAt f N j = true →
      (jobItemState f (N + 1) j).status = "FAILURE" ∧
      (jobItemState f (N + 1) j).result_payload
          = some { message := "Error fetching status.", output_path := none } ∧
      ∀ M, N < M → jobItemPollsAt f M j = false) ∧
    jobDetailState f (N + 1) jD = jobDetailState f N jD := by
  constructor
  · intro hpoll
    have hstep : jobItemState f (N + 1) j = jobItemFail (jobItemState f N j) := by
      show (let s := pollState jobItemTick f N j
            if isRunningStatus s.status then jobItemTick s (f N) else s)
          = jobItemFail (pollState jobItemTick f N j)
      have : isRunningStatus ((pollState jobItemTick f N j).status) = true := hpoll
      simp only [this, if_true, hf]
      rfl
    have hstat : (jobItemState f (N + 1) j).status = "FAILURE" := by rw [hstep]; rfl
    refine ⟨hstat, by rw [hstep]; rfl, ?_⟩
    intro M hM
    have hstop : isRunningStatus ((pollState jobItemTick f (N + 1) j).status) = false := by
      have : (pollState jobItemTick f (N + 1) j).status = "FAILURE" := hstat
      rw [this]; rfl
    have hfroz := pollState_frozen jobItemTick f j (N + 1) hstop M hM
    unfold jobItemPollsAt pollsAt
    rw [hfroz]
    exact hstop
  · show (let s := pollState jobDetailTick f N jD
          if isRunningStatus s.status then jobDetailTick s (f N) else s)
        = pollState jobDetailTick f N jD
    by_cases hrun : isRunningStatus ((pollState jobDetailTick f N jD).status) = true
    · simp only [hrun, if_true, hf]
      rfl
    · simp only [Bool.not_eq_true] at hrun
      simp [hrun]

/-- C4 witness: on the all-errors schedule, tick 0 of the `JobItem.jsx`
loop turns a `PROGRESS` job into `FAILURE`, and tick 0 of the
`JobDetailPage.jsx` loop leaves the job unchanged. -/
theorem tick_failure_behaviour_check :
    (jobItemState (fun _ => .error ()) 1
      { job_id := "j", prompt := "p", status := "PROGRESS", created_at := 0,
        result_payload := none }).status = "FAILURE" ∧
    jobDetailState (fun _ => .error ()) 1
      { job_id := "j", prompt := "p", status := "PROGRESS", created_at := 0,
        result_payload := none }
      = jobDetailState (fun _ => .error ()) 0
      { job_id := "j", prompt := "p", status := "PROGRESS", created_at := 0,
        result_payload := none } :=
  ⟨((tick_failure_behaviour (fun _ => .error ())
      { job_id := "j", prompt := "p", status := "PROGRESS", created_at := 0,
        result_payload := none }
      { job_id := "j", prompt := "p", status := "PROGRESS", created_at := 0,
        result_payload := none } 0 rfl).1 rfl).1,
   (tick_failure_behaviour (fun _ => .error ())
      { job_id := "j", prompt := "p", status := "PROGRESS", created_at := 0,
        result_payload := none }
      { job_id := "j", prompt := "p", status := "PROGRESS", created_at := 0,
        result_payload := none } 0 rfl).2⟩

/-- State of one `JobItem.jsx` subscription under the event-loop model:
the job snapshot, whether the interval is still installed (`clearInterval`
has not run), and the tick indices whose fetches are in flight. -/
structure SubscriptionState where
  job : Job
  timerActive : Bool
  inFlight : List Nat
deriving DecidableEq

/-- Events of a subscription's life: the interval callback dispatches a
fetch, an in-flight fetch resolves, or the effect cleanup cancels the
subscription (`clearInterval`, `JobItem.jsx` lines 54–56). -/
inductive PollEvent where
  | dispatch (i : Nat)
  | resolve (i : Nat) (r : FetchResult)
  | cancel

/-- One event of the subscription.  A dispatch happens only while the
interval is installed and the snapshot is still running; a resolution runs
the `setJob` continuation unconditionally — the source checks no liveness
flag before applying an in-flight result (`JobItem.jsx` lines 24–49);
cancellation clears the interval and nothing else.  `none` means the event
cannot occur in that state. -/
def subStep (st : SubscriptionState) (e : PollEvent) : Option SubscriptionState :=
  match e with
  | .dispatch i =>
      if st.timerActive && isRunningStatus st.job.status then
        some { st with inFlight := st.inFlight ++ [i] }
      else
        none
  | .resolve i r =>
      if st.inFlight.contains i then
        some { st with job := jobItemTick st.job r, inFlight := st.inFlight.erase i }
      else
        none
  | .cancel => some { st with timerActive := false }

/-- Run a sequence of subscription events; `none` if some event cannot
occur. -/
def subRun (st : SubscriptionState) : List PollEvent → Option SubscriptionState
  | [] => some st
  | e :: es =>
      match subStep st e with
      | some st' => subRun st' es
      | none => none

/-- No step re-installs a cleared timer. -/
theorem subStep_keeps_timer_off {st st' : SubscriptionState} {e : PollEvent}
    (h : subStep st e = some st') (ht : st.timerActive = false) :
    st'.timerActive = false := by
  cases e with
  | dispatch i =>
      simp only [subStep] at h
      split at h
      · cases h
        exact ht
      · exact Option.noConfusion h
  | resolve i r =>
      simp only [subStep] at h
      split at h
      · cases h
        exact ht
      · exact Option.noConfusion h
  | cancel =>
      simp only [subStep] at h
      cases h
      rfl

/-- Dispatches are impossible once the timer is cleared: every step keeps
`timerActive` false and a dispatch step requires it true. -/
theorem subRun_no_dispatch_of_timer_off :
    ∀ (evs : List PollEvent) (st st' : SubscriptionState), st.timerActive = false →
      subRun st evs = some st' → ∀ i, PollEvent.dispatch i ∉ evs := by
  intro evs
  induction evs with
  | nil => intro st st' _ _ i h; exact List.not_mem_nil _ h
  | cons e es ih =>
      intro st st' htimer hrun i hmem
      rw [subRun] at hrun
      cases hstep : subStep st e with
      | none => rw [hstep] at hrun; exact Option.noConfusion hrun
      | some st1 =>
          rw [hstep] at hrun
          rcases List.mem_cons.mp hmem with he | hes
          · subst he
            simp [subStep, htimer] at hstep
          · exact ih st1 st' (subStep_keeps_timer_off hstep htimer) hrun i hes

/-- C2 counterexample: an in-flight fetch dispatched before cancellation
and resolving after it is applied, not discarded.  From a `PROGRESS` job,
the trace dispatch–cancel–resolve is accepted by the subscription
semantics and the resolution updates the snapshot to `SUCCESS` with the
fetched payload, so the cancelled tick causes an observable update. -/
theorem inflight_after_cancel_updates_snapshot :
    subRun
      { job := { job_id := "j", prompt := "p", status := "PROGRESS", created_at := 0,
                 result_payload := none },
        timerActive := true, inFlight := [] }
      [PollEvent.dispatch 0, PollEvent.cancel,
       PollEvent.resolve 0 (.ok { status := "SUCCESS",
                                  result := some { message := "done", output_path := none } })]
      = some { job := { job_id := "j", prompt := "p", status := "SUCCESS", created_at := 0,
                        result_payload := some { message := "done", output_path := none } },
               timerActive := false, inFlight := [] } ∧
    ({ job_id := "j", prompt := "p", status := "SUCCESS", created_at := 0,
       result_payload := some { message := "done", output_path := none } } : Job)
      ≠ { job_id := "j", prompt := "p", status := "PROGRESS", created_at := 0,
          result_payload := none } := by
  refine ⟨by decide, by decide⟩

/-- C2 amended: cancelling the subscription clears the timer immediately,
after which no further fetch is dispatched; but an in-flight fetch
dispatched before cancellation is not discarded — when it resolves, its
result is still applied to the job snapshot through the `setJob`
continuation (the source keeps no liveness flag). -/
theorem cancel_clears_timer_but_inflight_applies (st : SubscriptionState) :
    (subStep st PollEvent.cancel = some { st with timerActive := false }) ∧
    (∀ evs st', subRun { st with timerActive := false } evs = some st' →
      ∀ i, PollEvent.dispatch i ∉ evs) ∧
    (∀ i r, st.inFlight.contains i = true →
      subStep { st with timerActive := false } (PollEvent.resolve i r)
        = some { job := jobItemTick st.job r, timerActive := false,
                 inFlight := st.inFlight.erase i }) := by
  refine ⟨rfl, ?_, ?_⟩
  · intro evs st' hrun i
    exact subRun_no_dispatch_of_timer_off evs _ st' rfl hrun i
  · intro i r hc
    have hmem : i ∈ st.inFlight := by simpa using hc
    simp [subStep, hmem]

/-- A decoded identity token as `jwtDecode` yields it: the fields the
session logic reads (`exp` in epoch seconds, `email`). -/
structure DecodedToken where
  exp : Int
  email : String
deriving DecidableEq

/-- What the boot sequence concludes from durable storage alone. -/
inductive InitOutcome where
  | authenticatedFromStored (d : DecodedToken) (rawToken : String)
  | silentRefreshAttempt
  | unauthenticated
deriving DecidableEq

/-- The stored-token branch of `initializeGoogleSignIn` in the
`AuthContext.jsx` revision (`App.js` lines 95–141): no stored token means
unauthenticated; a stored token is decoded, accepted only when
`decodedToken.exp * 1000 > Date.now()`, and otherwise removed from storage
followed by the silent prompt; a decode failure removes the token and ends
unauthenticated.  The result pairs the outcome with the storage contents
afterwards. -/
def initializeGoogleSignIn (stored : Option String)
    (decode : String → Except Unit DecodedToken) (now : Int) :
    InitOutcome × Option String :=
  match stored with
  | none => (.unauthenticated, none)
  | some s =>
      match decode s with
      | .error _ => (.unauthenticated, none)
      | .ok d =>
          if d.exp * 1000 > now then (.authenticatedFromStored d s, some s)
          else (.silentRefreshAttempt, none)

/-- The stored-token branch of the `AuthContext.js` revision (lines 49–65):
identical expiry check, but an expired token is simply removed — no silent
prompt — so the session ends unauthenticated. -/
def authProviderStoredCheck (stored : Option String)
    (decode : String → Except Unit DecodedToken) (now : Int) :
    InitOutcome × Option String :=
  match stored with
  | none => (.unauthenticated, none)
  | some s =>
      match decode s with
      | .error _ => (.unauthenticated, none)
      | .ok d =>
          if d.exp * 1000 > now then (.authenticatedFromStored d s, some s)
          else (.unauthenticated, none)

/-- C5: a stored credential with `exp * 1000 ≤ now` never authenticates the
session by itself: both revisions of the boot sequence discard the stored
token, and the outcome is the silent-refresh attempt (`AuthContext.jsx`)
or the unauthenticated state (`AuthContext.js`). -/
theorem expired_stored_token_never_authenticated (s : String)
    (decode : String → Except Unit DecodedToken) (now : Int) (d : DecodedToken)
    (hdec : decode s = .ok d) (hexp : d.exp * 1000 ≤ now) :
    initializeGoogleSignIn (some s) decode now = (.silentRefreshAttempt, none) ∧
    authProviderStoredCheck (some s) decode now = (.unauthenticated, none) := by
  have hlt : ¬ d.exp * 1000 > now := not_lt.mpr hexp
  constructor
  · simp [initializeGoogleSignIn, hdec, hlt]
  · simp [authProviderStoredCheck, hdec, hlt]

/-- C5 witness: a token that expired exactly at `now` (boundary case
`exp * 1000 = now`) is rejected by both revisions. -/
theorem expired_stored_token_check :
    initializeGoogleSignIn (some "tok") (fun _ => .ok { exp := 100, email := "a@b" }) 100000
      = (.silentRefreshAttempt, none) ∧
    authProviderStoredCheck (some "tok") (fun _ => .ok { exp := 100, email := "a@b" }) 100000
      = (.unauthenticated, none) :=
  expired_stored_token_never_authenticated "tok" (fun _ => .ok { exp := 100, email := "a@b" })
    100000 { exp := 100, email := "a@b" } rfl (by decide)

/-- The authentication state the `AuthProvider` owns, plus whether the
provider script (`window.google`) is loaded. -/
structure AuthState where
  user : Option DecodedToken
  token : Option String
  storage : Option String
  providerAvailable : Bool
deriving DecidableEq

/-- The `logout` function of the `AuthContext.jsx` revision (`App.js` lines
184–196): it first clears the in-memory user and token and removes the
stored token, then — only if a token was present and `window.google`
exists — requests revocation from the provider, whose outcome is delivered
to a logging callback and never thrown.  The result reports the new state
and whether revocation was requested; the `Except` layer shows that no
path throws to the caller. -/
def logout (st : AuthState) (_revokeOutcome : Except String Unit) :
    Except String (AuthState × Bool) :=
  let cleared : AuthState :=
    { st with user := none, token := none, storage := none }
  if st.token.isSome && st.providerAvailable then
    -- revoke(user.email, done => console.log(...)): `revokeOutcome` is only
    -- observed by the callback, so it does not affect the result.
    .ok (cleared, true)
  else
    .ok (cleared, false)

/-- C8: logout always clears the in-memory credential and the persisted
token and ends signed out, for every starting state, every revocation
outcome and whether or not the provider is reachable; revocation is
requested exactly when a token was present and the provider is available,
and no failure surfaces to the caller. -/
theorem logout_clears_locally_and_never_throws (st : AuthState)
    (revokeOutcome : Except String Unit) :
    logout st revokeOutcome
      = .ok ({ st with user := none, token := none, storage := none },
             st.token.isSome && st.providerAvailable) := by
  unfold logout
  by_cases h : (st.token.isSome && st.providerAvailable) = true
  · simp [h]
  · simp only [Bool.not_eq_true] at h
    simp [h]

/-- The body of a non-2xx HTTP response as `apiFetch` sees it: either it
fails to parse as JSON (with the raw response text recorded for
comparison), or it parses and its `detail` field is absent (`none`) or a
string. -/
inductive JsonBody where
  | invalid (rawText : String)
  | valid (detail : Option String)
deriving DecidableEq

/-- An HTTP response observed by `apiFetch` (`services/api.js` lines
20–50). -/
structure HttpResponse where
  ok : Bool
  status : Nat
  body : JsonBody
deriving DecidableEq

/-- The error thrown by `apiFetch` on a non-2xx response: a message and the
HTTP status attached as `error.status`.  The source attaches nothing else —
in particular no URL; the endpoint appears only in a `console.error`. -/
structure ApiError where
  message : String
  status : Nat
deriving DecidableEq

/-- The status-line fallback string of `apiFetch`. -/
def httpStatusLine (status : Nat) : String :=
  "HTTP error! status: " ++ toString status

/-- The error message `apiFetch` builds: the parsed body's `detail` when
present and truthy; when parsing failed, the fixed `catch` replacement
`{ detail: "An unknown error occurred." }` supplies the message; a missing
or empty `detail` falls back to the status line. -/
def apiFetchErrorMessage (resp : HttpResponse) : String :=
  match resp.body with
  | .invalid _ => "An unknown error occurred."
  | .valid (some d) => if d = "" then httpStatusLine resp.status else d
  | .valid none => httpStatusLine resp.status

/-- The result of `apiFetch` as a function of the response: a non-2xx
response always throws the constructed error; a 2xx response resolves with
the body. -/
def apiFetch (resp : HttpResponse) : Except ApiError JsonBody :=
  if resp.ok then
    .ok resp.body
  else
    .error { message := apiFetchErrorMessage resp, status := resp.status }

/-- C9 counterexample: a 504 response whose body `"Gateway Timeout"` is not
valid JSON produces the fixed message `"An unknown error occurred."` — not
the raw response text and not the HTTP status line, contradicting the
claimed fallback. -/
theorem apiFetch_invalid_json_fixed_message :
    apiFetch { ok := false, status := 504, body := .invalid "Gateway Timeout" }
      = .error { message := "An unknown error occurred.", status := 504 } ∧
    ("An unknown error occurred." : String) ≠ "Gateway Timeout" ∧
    ("An unknown error occurred." : String) ≠ httpStatusLine 504 := by
  refine ⟨rfl, by decide, by decide⟩

/-- C9 amended: every non-2xx response makes `apiFetch` throw an error that
carries the HTTP status (the originating URL is only logged, not attached);
the message is the JSON body's `detail` field when present and non-empty,
falls back to `"HTTP error! status: N"` when the body parses but `detail`
is absent or empty, and is the fixed `"An unknown error occurred."` when
the body is not valid JSON; no non-2xx response is swallowed. -/
theorem apiFetch_error_envelope_amended (resp : HttpResponse) :
    (resp.ok = false →
      apiFetch resp = .error { message := apiFetchErrorMessage resp, status := resp.status }) ∧
    (∀ d : String, resp.body = .valid (some d) → d ≠ "" →
      apiFetchErrorMessage resp = d) ∧
    (∀ raw : String, resp.body = .invalid raw →
      apiFetchErrorMessage resp = "An unknown error occurred.") ∧
    (resp.body = .valid none →
      apiFetchErrorMessage resp = httpStatusLine resp.status) ∧
    (resp.ok = true → apiFetch resp = .ok resp.body) := by
  refine ⟨?_, ?_, ?_, ?_, ?_⟩
  · intro h
    simp [apiFetch, h]
  · intro d hb hd
    simp [apiFetchErrorMessage, hb, hd]
  · intro raw hb
    simp [apiFetchErrorMessage, hb]
  · intro hb
    simp [apiFetchErrorMessage, hb]
  · intro h
    simp [apiFetch, h]

/-- A file handle held for submission: only its name is consulted by
`createJob` (the blob itself is opaque). -/
structure UploadFile where
  name : String
deriving DecidableEq

/-- One entry of the multipart form `createJob` builds. -/
inductive FormValue where
  | text (s : String)
  | fileEntry (f : UploadFile) (filename : String)
deriving DecidableEq

/-- The `createJob` function (`services/api.js` lines 88–113): it appends
the prompt to a `FormData`, and if `files` is present and non-empty appends
each file under the field `files` with its own `file.name` as the filename
and submits that form as the one POST request (the `.ok` value); otherwise
it returns a rejected promise (the `.error` value) before any network call
is made. -/
def createJob (prompt : String) (files : Option (List UploadFile)) :
    Except String (List (String × FormValue)) :=
  let formData : List (String × FormValue) := [("prompt", FormValue.text prompt)]
  match files with
  | some fs =>
      if fs.length > 0 then
        .ok (formData ++ fs.map (fun f => ("files", FormValue.fileEntry f f.name)))
      else
        .error "At least one file must be provided to start a job."
  | none => .error "At least one file must be provided to start a job."

/-- C10: with an absent or empty files array `createJob` rejects with
exactly `"At least one file must be provided to start a job."` and builds
no request; with at least one file it submits one multipart form whose
first field is the prompt and which carries every file under the `files`
field with its own filename. -/
theorem createJob_requires_files_and_builds_form (prompt : String)
    (files : Option (List UploadFile)) :
    ((files = none ∨ files = some []) →
      createJob prompt files = .error "At least one file must be provided to start a job.") ∧
    (∀ fs : List UploadFile, files = some fs → fs ≠ [] →
      createJob prompt files
        = .ok (("prompt", FormValue.text prompt)
            :: fs.map (fun f => ("files", FormValue.fileEntry f f.name)))) := by
  constructor
  · rintro (h | h) <;> simp [createJob, h]
  · intro fs hfs hne
    have hlen : 0 < fs.length := List.length_pos.mpr hne
    simp [createJob, hfs, hlen]

/-- A dropped file-system entry.  A directory's contents are delivered by
its reader in successive batches: each `readEntries` call returns the next
batch, and an empty batch signals the end of the enumeration. -/
inductive FsEntry where
  | file (name : String)
  | dir (name : String) (batches : List (List FsEntry))

/-- Modelled from the spec: the repeated-read loop the collector is
required to run — "a single read is not guaranteed to return the full
contents for large directories, so the collector must loop until an empty
batch is observed".  It concatenates successive batches and stops at the
first empty one (reads past the end of the list also report empty). -/
def readAllBatches : List (List FsEntry) → List FsEntry
  | [] => []
  | b :: bs => if b.isEmpty then [] else b ++ readAllBatches bs

/-- Appending lists is additive for `sizeOf` (up to the nil constructor). -/
theorem sizeOf_append (l1 l2 : List FsEntry) :
    sizeOf (l1 ++ l2) + 1 = sizeOf l1 + sizeOf l2 := by
  induction l1 with
  | nil =>
      simp only [List.nil_append, List.nil.sizeOf_spec]
      omega
  | cons a l ih =>
      simp only [List.cons_append, List.cons.sizeOf_spec]
      omega

/-- The repeated-read loop never grows the measure. -/
theorem sizeOf_readAllBatches (bs : List (List FsEntry)) :
    sizeOf (readAllBatches bs) ≤ sizeOf bs := by
  induction bs with
  | nil => simp [readAllBatches]
  | cons b rest ih =>
      by_cases h : b.isEmpty
      · have hred : readAllBatches (b :: rest) = [] := by
          simp [readAllBatches, h]
        rw [hred]
        simp only [List.nil.sizeOf_spec, List.cons.sizeOf_spec]
        omega
      · have hred : readAllBatches (b :: rest) = b ++ readAllBatches rest := by
          simp [readAllBatches, h]
        rw [hred]
        have hadd := sizeOf_append b (readAllBatches rest)
        simp only [List.cons.sizeOf_spec]
        omega

/-- The `getFilesFromEntry` helper of `CreateJobForm.jsx` (lines 137–156):
a file resolves to itself; a directory calls `dirReader.readEntries` ONCE —
so only the first reported batch is seen — and recurses into each entry of
that single batch, flattening depth-first in reported order. -/
def getFilesFromEntry : FsEntry → List String
  | .file n => [n]
  | .dir dname batches =>
      ((batches.headD []).attach.map (fun e => getFilesFromEntry e.1)).flatten
termination_by e => sizeOf e
decreasing_by
  have hmem := e.2
  have hdir : sizeOf (batches.headD []) < sizeOf (FsEntry.dir dname batches) := by
    cases batches with
    | nil =>
        show sizeOf ([] : List FsEntry) < sizeOf (FsEntry.dir dname [])
        simp only [List.nil.sizeOf_spec, FsEntry.dir.sizeOf_spec]
        omega
    | cons b bs =>
        show sizeOf b < sizeOf (FsEntry.dir dname (b :: bs))
        simp only [FsEntry.dir.sizeOf_spec, List.cons.sizeOf_spec]
        omega
  exact Nat.lt_trans (List.sizeOf_lt_of_mem hmem) hdir

/-- Modelled from the spec: the collector as specified, expanding each
directory by the repeated-read loop before recursing into each child,
flattened depth-first in reported order. -/
def collectAllFiles : FsEntry → List String
  | .file n => [n]
  | .dir dname batches =>
      ((readAllBatches batches).attach.map (fun e => collectAllFiles e.1)).flatten
termination_by e => sizeOf e
decreasing_by
  have hmem := e.2
  have h1 := List.sizeOf_lt_of_mem hmem
  have h2 := sizeOf_readAllBatches batches
  have h3 : sizeOf batches < sizeOf (FsEntry.dir dname batches) := by
    simp only [FsEntry.dir.sizeOf_spec]
    omega
  omega

/-- C6: the code reads a directory's contents once instead of looping until
an empty batch.  On a directory whose enumeration reports its two files in
two successive batches, `getFilesFromEntry` returns only the first batch's
file, while the specified repeated-read collector returns both. -/
theorem single_readEntries_drops_second_batch :
    getFilesFromEntry (.dir "d" [[.file "a"], [.file "b"]]) = ["a"] ∧
    collectAllFiles (.dir "d" [[.file "a"], [.file "b"]]) = ["a", "b"] ∧
    getFilesFromEntry (.dir "d" [[.file "a"], [.file "b"]])
      ≠ collectAllFiles (.dir "d" [[.file "a"], [.file "b"]]) := by
  have h1 : getFilesFromEntry (.dir "d" [[.file "a"], [.file "b"]]) = ["a"] := by
    simp [getFilesFromEntry]
  have h2 : collectAllFiles (.dir "d" [[.file "a"], [.file "b"]]) = ["a", "b"] := by
    simp [collectAllFiles, readAllBatches]
  refine ⟨h1, h2, ?_⟩
  rw [h1, h2]
  decide

/-- The comparator passed to `fetchedJobs.sort` in `Sidebar.jsx` (lines
20–26): active jobs (status `PENDING` or `PROGRESS`) sort before all
others; otherwise the numeric difference of the creation dates, newest
first. -/
def jobCompare (a b : Job) : Int :=
  if isRunningStatus a.status && !(isRunningStatus b.status) then -1
  else if !(isRunningStatus a.status) && isRunningStatus b.status then 1
  else b.created_at - a.created_at

/-- The non-strict order induced by the comparator: `a` may come before
`b`. -/
def jobLe (a b : Job) : Prop := jobCompare a b ≤ 0

instance : DecidableRel jobLe := fun a b => by unfold jobLe; infer_instance

/-- `Array.prototype.sort` is specified to be stable and, for a consistent
comparator, to order the array so that `a` precedes `b` whenever
`compare(a, b) < 0`.  A stable sort by a consistent comparator is unique,
so the sort in `fetchJobs` is embedded as the stable insertion sort by the
comparator's non-strict order. -/
def sortJobs (l : List Job) : List Job := List.insertionSort jobLe l

/-- Rank of the comparator's primary key: active jobs first. -/
def activeRank (j : Job) : Nat := if isRunningStatus j.status then 0 else 1

/-- The comparator's order is the lexicographic order on
(activity rank, creation time descending). -/
theorem jobLe_iff (a b : Job) :
    jobLe a b ↔
      (activeRank a < activeRank b ∨
        (activeRank a = activeRank b ∧ b.created_at ≤ a.created_at)) := by
  unfold jobLe jobCompare activeRank
  by_cases ha : isRunningStatus a.status <;> by_cases hb : isRunningStatus b.status <;>
    simp [ha, hb]

instance : IsTotal Job jobLe :=
  ⟨fun a b => by rw [jobLe_iff, jobLe_iff]; omega⟩

instance : IsTrans Job jobLe :=
  ⟨fun a b c h1 h2 => by rw [jobLe_iff] at h1 h2 ⊢; omega⟩

/-- What `jobLe a b` says about the claim's reading of the order: whoever
comes first is active whenever the later one is, and within one activity
group creation times are descending. -/
theorem jobLe_dest {a b : Job} (h : jobLe a b) :
    (isRunningStatus b.status = true → isRunningStatus a.status = true) ∧
    (isRunningStatus a.status = isRunningStatus b.status → b.created_at ≤ a.created_at) := by
  rw [jobLe_iff] at h
  by_cases ha : isRunningStatus a.status <;> by_cases hb : isRunningStatus b.status <;>
    simp [activeRank, ha, hb] at h ⊢ <;> omega

/-- Two jobs with the same activity flag and the same creation time are
tied under the comparator. -/
theorem keyed_jobLe {q : Bool} {t : Int} {x y : Job}
    (hx : (isRunningStatus x.status == q && x.created_at == t) = true)
    (hy : (isRunningStatus y.status == q && y.created_at == t) = true) :
    jobLe x y := by
  simp only [Bool.and_eq_true, beq_iff_eq] at hx hy
  rw [jobLe_iff]
  refine Or.inr ⟨?_, ?_⟩
  · simp [activeRank, hx.1, hy.1]
  · rw [hx.2, hy.2]

/-- Inserting a minimal element of the class `p` puts it in front of every
other member of `p`. -/
theorem filter_orderedInsert_pos (p : Job → Bool) (x : Job) (hx : p x = true)
    (hmin : ∀ y, p y = true → jobLe x y) :
    ∀ l : List Job, (List.orderedInsert jobLe x l).filter p = x :: l.filter p := by
  intro l
  induction l with
  | nil => simp [List.orderedInsert, hx]
  | cons b lb ih =>
      by_cases hle : jobLe x b
      · simp [List.orderedInsert, hle, List.filter_cons, hx]
      · have hb : p b = false := by
          cases hpb : p b
          · rfl
          · exact absurd (hmin b hpb) hle
        simp [List.orderedInsert, hle, List.filter_cons, hb, ih]

/-- Inserting an element outside the class `p` leaves the class's members
unchanged. -/
theorem filter_orderedInsert_neg (p : Job → Bool) (x : Job) (hx : p x = false) :
    ∀ l : List Job, (List.orderedInsert jobLe x l).filter p = l.filter p := by
  intro l
  induction l with
  | nil => simp [List.orderedInsert, hx]
  | cons b lb ih =>
      by_cases hle : jobLe x b
      · simp [List.orderedInsert, hle, List.filter_cons, hx]
      · simp [List.orderedInsert, hle, List.filter_cons, ih]

/-- Stability of the insertion sort on any class of mutually tied
elements: their relative order is the input order. -/
theorem filter_insertionSort (p : Job → Bool)
    (hmin : ∀ x y, p x = true → p y = true → jobLe x y) :
    ∀ l : List Job, (List.insertionSort jobLe l).filter p = l.filter p := by
  intro l
  induction l with
  | nil => rfl
  | cons b lb ih =>
      rw [List.insertionSort]
      cases hb : p b
      · rw [filter_orderedInsert_neg p b hb, ih]
        simp [List.filter_cons, hb]
      · rw [filter_orderedInsert_pos p b hb (fun y hy => hmin b y hb hy), ih]
        simp [List.filter_cons, hb]

/-- C7: `fetchJobs`'s sort is a permutation of the fetched list in which
every job that precedes another is active whenever the later one is (all
`PENDING`/`PROGRESS` jobs precede the rest), creation times are descending
within each of the two groups, and jobs tied on (activity, creation time)
keep their original fetch order. -/
theorem refresh_sort_ordering (l : List Job) :
    List.Perm (sortJobs l) l ∧
    List.Pairwise (fun a b =>
      (isRunningStatus b.status = true → isRunningStatus a.status = true) ∧
      (isRunningStatus a.status = isRunningStatus b.status → b.created_at ≤ a.created_at))
      (sortJobs l) ∧
    ∀ (q : Bool) (t : Int),
      (sortJobs l).filter (fun j => isRunningStatus j.status == q && j.created_at == t)
        = l.filter (fun j => isRunningStatus j.status == q && j.created_at == t) := by
  refine ⟨List.perm_insertionSort jobLe l, ?_, ?_⟩
  · exact (List.sorted_insertionSort jobLe l).imp (fun h => jobLe_dest h)
  · intro q t
    exact filter_insertionSort _ (fun x y hx hy => keyed_jobLe hx hy) l

end CodecAgent
